import Mathlib

/-!
Verification development for the data_migration_tool repository.

The repository ships the client-side form and dashboard scripts of a
Frappe data-migration app.  The analysis, similarity-ranking, state-machine
and executor components live in the Python backend, which is not part of
the shipped sources; where a claim concerns such a component, the
corresponding definition below is modelled from the specification text and
its doc comment says so.  Definitions concerning the shipped JavaScript
(the field-mapping dialog defaults, the similarity-suggestion rendering,
the realtime-listener initialisation guard) are translated from that code.
-/

namespace DMT

/-! ## Character and string helpers (all executable on List Char) -/

/-- Modelled from the spec: blank detection for sample values (empty or
whitespace-only strings count as blank). -/
def isBlank (s : String) : Bool := s.data.all Char.isWhitespace

/-- Digit characters accepted by the numeric predicates. -/
def isDigitCh (c : Char) : Bool := c.isDigit

/-- Number of digit characters in a string. -/
def digitCount (s : String) : Nat := (s.data.filter isDigitCh).length

/-- Punctuation characters tolerated inside a phone number. -/
def phonePunct : List Char := ['+', '-', '(', ')', ' ', '.']

/-- Modelled from the spec: Phone predicate of the Type Inferencer
(digits/punctuation only, 7 to 15 digits).  The inferencer itself is in the
Python backend, absent from the shipped sources. -/
def isPhone (s : String) : Bool :=
  s.data.all (fun c => isDigitCh c || phonePunct.contains c)
    && decide (7 ≤ digitCount s) && decide (digitCount s ≤ 15)

/-- Modelled from the spec: Email predicate (a local part, an '@', and a
dotted domain pattern). -/
def isEmail (s : String) : Bool :=
  match s.data.splitOn '@' with
  | [lp, dom] =>
      !lp.isEmpty
        && (match dom.splitOn '.' with
            | ps => decide (2 ≤ ps.length) && ps.all (fun p => !p.isEmpty))
  | _ => false

/-- Modelled from the spec: Date predicate, a fixed set of common formats
(ISO `YYYY-MM-DD` and slash-separated `DD/MM/YYYY`). -/
def isDate (s : String) : Bool :=
  match s.data with
  | [c0, c1, c2, c3, c4, c5, c6, c7, c8, c9] =>
      (isDigitCh c0 && isDigitCh c1 && isDigitCh c2 && isDigitCh c3
        && (c4 == '-') && isDigitCh c5 && isDigitCh c6 && (c7 == '-')
        && isDigitCh c8 && isDigitCh c9)
      ||
      (isDigitCh c0 && isDigitCh c1 && (c2 == '/') && isDigitCh c3
        && isDigitCh c4 && (c5 == '/') && isDigitCh c6 && isDigitCh c7
        && isDigitCh c8 && isDigitCh c9)
  | _ => false

/-- Strip one optional leading sign character. -/
def stripSign : List Char → List Char
  | '+' :: r => r
  | '-' :: r => r
  | r => r

/-- Non-empty all-digit character list. -/
def isDigits (cs : List Char) : Bool := !cs.isEmpty && cs.all isDigitCh

/-- Integer shape on characters: optional sign then digits. -/
def isIntChars (cs : List Char) : Bool := isDigits (stripSign cs)

/-- Modelled from the spec: Int predicate (all-digit, optional sign). -/
def isInt (s : String) : Bool := isIntChars s.data

/-- Float shape on characters: optional sign, digits, one decimal point,
digits. -/
def isFloatChars (cs : List Char) : Bool :=
  match (stripSign cs).splitOn '.' with
  | [a, b] => isDigits a && isDigits b
  | _ => false

/-- Modelled from the spec: Float predicate (numeric with decimal point). -/
def isFloat (s : String) : Bool := isFloatChars s.data

/-- Currency symbols recognised by the Currency predicate. -/
def currencySymbols : List Char := ['$', '€', '£', '₹']

/-- Numeric body of a currency value: integer or float shape. -/
def isNumericChars (cs : List Char) : Bool := isIntChars cs || isFloatChars cs

/-- Modelled from the spec: Currency predicate (numeric with a leading or
trailing currency symbol). -/
def isCurrency (s : String) : Bool :=
  (match s.data with
   | c :: rest => currencySymbols.contains c && isNumericChars rest
   | [] => false)
  ||
  (match s.data.reverse with
   | c :: rest => currencySymbols.contains c && isNumericChars rest.reverse
   | [] => false)

/-! ## Type Inferencer -/

/-- The closed set of field types the analyzer can suggest. -/
inductive FieldType
  | Data
  | Text
  | Email
  | Phone
  | Date
  | Int
  | Float
  | Currency
deriving DecidableEq, Repr

/-- The per-value predicate of each specific field type; the generic
fallbacks Data and Text have no predicate. -/
def typePred : FieldType → String → Bool
  | FieldType.Email, s => isEmail s
  | FieldType.Phone, s => isPhone s
  | FieldType.Date, s => isDate s
  | FieldType.Int, s => isInt s
  | FieldType.Float, s => isFloat s
  | FieldType.Currency, s => isCurrency s
  | FieldType.Data, _ => false
  | FieldType.Text, _ => false

/-- Specific (non-fallback) types, most specific first, in the order the
inferencer tries them. -/
def specificTypes : List FieldType :=
  [FieldType.Email, FieldType.Phone, FieldType.Date,
   FieldType.Int, FieldType.Float, FieldType.Currency]

/-- The non-blank values of a column sample. -/
def nonBlank (values : List String) : List String :=
  values.filter (fun v => !isBlank v)

/-- Modelled from the spec: the Type Inferencer's column-type vote.  The
column gets the first specific type whose predicate ALL non-blank values
satisfy; if no predicate is unanimous the column falls back to Data when
all values are short (at most 140 characters), else Text.  The inferencer
lives in the Python backend, absent from the shipped sources. -/
def inferType (values : List String) : FieldType :=
  if (nonBlank values).isEmpty then FieldType.Data
  else
    match specificTypes.find? (fun t => (nonBlank values).all (typePred t)) with
    | some t => t
    | none =>
        if values.all (fun v => decide (v.length ≤ 140)) then FieldType.Data
        else FieldType.Text

/-- Modelled from the spec: `is_required` is true iff no blank value was
observed in the sample. -/
def is_required (values : List String) : Bool :=
  values.all (fun v => !isBlank v)

/-- Boolean pairwise distinctness of a list of values. -/
def allDistinct : List String → Bool
  | [] => true
  | x :: xs => !xs.contains x && allDistinct xs

/-! ## Similarity Matcher -/

/-- Round-to-nearest integer percentage of the fraction num/den. -/
def roundPct (num den : Nat) : Nat := (200 * num + den) / (2 * den)

/-- Size of the intersection of a proposal field set (a duplicate-free
list) with an existing schema's field set. -/
def interCount (P E : List String) : Nat :=
  (P.filter (fun f => E.contains f)).length

/-- Modelled from the spec: the Similarity Matcher's per-schema score,
`100 * |proposal_fields ∩ existing_fields| / |proposal_fields|`,
integer-rounded.  The matcher is in the Python backend, absent from the
shipped sources; the form script only displays its output. -/
def similarity (P E : List String) : Nat := roundPct (interCount P E) P.length

/-! ## Schema Analyzer and confidence -/

/-- A captured raw dataset: ordered column names plus rows of raw string
values (row entries positionally aligned with the headers). -/
structure RawDataset where
  headers : List String
  rows : List (List String)
deriving Repr

/-- The sample values of column i of a dataset (missing entries read as
empty strings). -/
def columnValues (d : RawDataset) (i : Nat) : List String :=
  d.rows.map (fun r => r.getD i "")

/-- The inferred type of every column of a dataset, in column order. -/
def analyzeTypes (d : RawDataset) : List FieldType :=
  (List.range d.headers.length).map (fun i => inferType (columnValues d i))

/-- Whether a field type is the generic Data/Text fallback. -/
def isFallback : FieldType → Bool
  | FieldType.Data => true
  | FieldType.Text => true
  | _ => false

/-- Number of columns whose inferred type is a specific (non-fallback)
type. -/
def specificCount (d : RawDataset) : Nat :=
  ((analyzeTypes d).filter (fun t => !isFallback t)).length

/-- Modelled from the spec: the SchemaProposal's confidence, the
percentage of columns with a non-fallback inferred type, rounded to the
nearest integer; a dataset with zero columns yields 0.  The analyzer is in
the Python backend, absent from the shipped sources. -/
def confidence (d : RawDataset) : Nat :=
  if d.headers.isEmpty then 0
  else roundPct (specificCount d) d.headers.length

/-! ## Creation Request State Machine -/

/-- Lifecycle states of a creation request. -/
inductive Status
  | Pending
  | Approved
  | Redirected
  | Rejected
  | Completed
  | Failed
deriving DecidableEq, Repr

/-- The three human decision actions. -/
inductive DecisionAction
  | Approve
  | Redirect
  | Reject
deriving DecidableEq, Repr

/-- Errors raised by the state machine's transitions. -/
inductive TransitionError
  | InvalidTransitionError
  | UnknownSchemaError
  | MissingPayloadError
deriving DecidableEq, Repr

/-- The persistent state of one creation request that `decide` touches. -/
structure CreationRequest where
  status : Status
  target_schema_name : Option String
  rejection_reason : Option String
deriving DecidableEq, Repr

/-- Payload accompanying a decision: a target schema name for
Approve/Redirect, a reason for Reject. -/
structure DecisionPayload where
  target_name : Option String
  reason : Option String
deriving DecidableEq, Repr

/-- Modelled from the spec: the `decide` transition of the Creation
Request State Machine.  Only legal from `Pending`; fails with
`InvalidTransitionError` otherwise.  Approve needs a non-empty target
name, Redirect needs an existing schema name, Reject needs a non-empty
reason.  The backend handler (`handle_doctype_creation_response`) is
Python, absent from the shipped sources; the form script gates these
actions on Pending status. -/
def decideRequest (existing : List String) (req : CreationRequest)
    (action : DecisionAction) (payload : DecisionPayload) :
    Except TransitionError CreationRequest :=
  if req.status ≠ Status.Pending then
    Except.error TransitionError.InvalidTransitionError
  else
    match action with
    | DecisionAction.Approve =>
        match payload.target_name with
        | some n =>
            if n = "" then Except.error TransitionError.MissingPayloadError
            else Except.ok { req with status := Status.Approved,
                                      target_schema_name := some n }
        | none => Except.error TransitionError.MissingPayloadError
    | DecisionAction.Redirect =>
        match payload.target_name with
        | some n =>
            if existing.contains n then
              Except.ok { req with status := Status.Redirected,
                                   target_schema_name := some n }
            else Except.error TransitionError.UnknownSchemaError
        | none => Except.error TransitionError.MissingPayloadError
    | DecisionAction.Reject =>
        match payload.reason with
        | some r =>
            if r = "" then Except.error TransitionError.MissingPayloadError
            else Except.ok { req with status := Status.Rejected,
                                      rejection_reason := some r }
        | none => Except.error TransitionError.MissingPayloadError

/-! ## Migration Executor: per-row processing -/

/-- Row-level failure reasons. -/
inductive RowError
  | TypeCoercionError
  | ConstraintViolation
deriving DecidableEq, Repr

/-- One entry of a field mapping: target field name, type and
constraints. -/
structure FieldSpec where
  fieldname : String
  fieldtype : FieldType
  reqd : Bool
  unique : Bool
deriving DecidableEq, Repr

/-- Aggregate result of one executor run. -/
structure MigrationResult where
  success_count : Nat
  updated_count : Nat
  failed_count : Nat
  failures : List (Nat × RowError)
deriving DecidableEq, Repr

/-- Value of a named field in a raw row (association list), blank when
absent. -/
def rowValue (row : List (String × String)) (f : String) : String :=
  match row.find? (fun p => p.1 == f) with
  | some p => p.2
  | none => ""

/-- Modelled from the spec: whether a raw value can be cast to the mapped
fieldtype (blank values pass coercion and are caught by the required-field
constraint instead). -/
def coerceOk (ft : FieldType) (v : String) : Bool :=
  match ft with
  | FieldType.Int => isBlank v || isInt v
  | FieldType.Float => isBlank v || isFloat v || isInt v
  | FieldType.Date => isBlank v || isDate v
  | FieldType.Currency => isBlank v || isCurrency v || isInt v || isFloat v
  | _ => true

/-- Modelled from the spec: per-row processing of the Migration Executor.
Coercion failure or a blank required field is a row-level error; a row
whose unique-field value matches an already-committed value is an update,
otherwise an insert (`Except.ok true` means update). -/
def processRow (mapping : List FieldSpec) (committed : List (String × String))
    (row : List (String × String)) : Except RowError Bool :=
  if !mapping.all (fun f => coerceOk f.fieldtype (rowValue row f.fieldname)) then
    Except.error RowError.TypeCoercionError
  else if mapping.any (fun f => f.reqd && isBlank (rowValue row f.fieldname)) then
    Except.error RowError.ConstraintViolation
  else
    Except.ok (mapping.any
      (fun f => f.unique && committed.contains (f.fieldname, rowValue row f.fieldname)))

/-- Committed unique-field values contributed by an inserted row. -/
def uniqueKeys (mapping : List FieldSpec) (row : List (String × String)) :
    List (String × String) :=
  mapping.filterMap
    (fun f => if f.unique then some (f.fieldname, rowValue row f.fieldname) else none)

/-- Modelled from the spec: the executor's row loop.  Rows are processed
in source order; a row-level failure is recorded with its index and reason
and processing continues with the remaining rows. -/
def executeAux (mapping : List FieldSpec) :
    List (List (String × String)) → Nat → List (String × String) → MigrationResult
  | [], _, _ => ⟨0, 0, 0, []⟩
  | row :: rest, i, committed =>
    match processRow mapping committed row with
    | Except.error e =>
        let r := executeAux mapping rest (i + 1) committed
        ⟨r.success_count, r.updated_count, r.failed_count + 1, (i, e) :: r.failures⟩
    | Except.ok true =>
        let r := executeAux mapping rest (i + 1) committed
        ⟨r.success_count, r.updated_count + 1, r.failed_count, r.failures⟩
    | Except.ok false =>
        let r := executeAux mapping rest (i + 1) (committed ++ uniqueKeys mapping row)
        ⟨r.success_count + 1, r.updated_count, r.failed_count, r.failures⟩

/-- Modelled from the spec: `execute(dataset, schema, mapping)` with a
healthy record store. -/
def execute (mapping : List FieldSpec) (rows : List (List (String × String))) :
    MigrationResult :=
  executeAux mapping rows 0 []

/-- Modelled from the spec: completing `run_migration` on an
Approved/Redirected request with a healthy store: the executor's result is
recorded and the request transitions to Completed, row-level failures
notwithstanding. -/
def runApproved (req : CreationRequest) (mapping : List FieldSpec)
    (rows : List (List (String × String))) : CreationRequest × MigrationResult :=
  ({ req with status := Status.Completed }, execute mapping rows)

/-! ## Migration Executor: chunked commits and resumption -/

/-- Modelled from the spec: commit loop of one `run_migration` call over
the not-yet-committed rows.  `avail` is the record store's behaviour:
`none` means healthy, `some a` means the store accepts `a` upserts and
then becomes unavailable (`ExecutorUnavailableError`, reported as a
`false` flag).  Returns how many rows this call committed and whether it
completed. -/
def runRows : List String → Option Nat → Nat × Bool
  | [], _ => (0, true)
  | _ :: rs, none => ((runRows rs none).1 + 1, (runRows rs none).2)
  | _ :: _, some 0 => (0, false)
  | _ :: rs, some (a + 1) => ((runRows rs (some a)).1 + 1, (runRows rs (some a)).2)

/-- Modelled from the spec: one `run_migration` invocation on a request
whose first `committed` rows are already committed by earlier calls; it
resumes from the first uncommitted row (never reprocessing committed
rows) and returns the new committed count plus a completion flag. -/
def run_migration (rows : List String) (committed : Nat) (avail : Option Nat) :
    Nat × Bool :=
  (committed + (runRows (rows.drop committed) avail).1,
   (runRows (rows.drop committed) avail).2)

/-! ## clean_name derivation and deduplication -/

/-- Collapse runs of consecutive underscores to a single underscore. -/
def collapseUnd : List Char → List Char
  | [] => []
  | [c] => [c]
  | c :: d :: rest =>
      if c == '_' && d == '_' then collapseUnd (d :: rest)
      else c :: collapseUnd (d :: rest)

/-- Strip leading and trailing underscores. -/
def stripUnd (cs : List Char) : List Char :=
  ((cs.dropWhile (fun c => c == '_')).reverse.dropWhile (fun c => c == '_')).reverse

/-- Modelled from the spec: the base `clean_name` of one column name:
lowercase, every run of non-alphanumeric characters becomes a single
underscore, leading/trailing underscores stripped, `field` when empty.
The analyzer that computes it is in the Python backend, absent from the
shipped sources. -/
def clean_base (s : String) : String :=
  let mapped := (s.data.map Char.toLower).map
    (fun c => if c.isAlphanum then c else '_')
  let core := stripUnd (collapseUnd mapped)
  if core.isEmpty then "field" else ⟨core⟩

/-- The decimal digit character of n (n below 10). -/
def digitChar (n : Nat) : Char := Char.ofNat (48 + n)

/-- Little-endian decimal digits of n, with explicit fuel for structural
recursion. -/
def natDigitsAux : Nat → Nat → List Char
  | 0, _ => []
  | fuel + 1, n =>
      if n < 10 then [digitChar n]
      else digitChar (n % 10) :: natDigitsAux fuel (n / 10)

/-- Little-endian decimal digits of n. -/
def natDigits (n : Nat) : List Char := natDigitsAux (n + 1) n

/-- Numeric value of a little-endian digit list (inverse of natDigits). -/
def digitsVal : List Char → Nat
  | [] => 0
  | c :: cs => (c.toNat - 48) + 10 * digitsVal cs

/-- The k-th collision candidate for a base name: `base_k`. -/
def candName (base : String) (k : Nat) : String :=
  ⟨base.data ++ '_' :: (natDigits k).reverse⟩

/-- First suffix candidate `base_k`, k counting up from the given start,
that is not among the used names, searched with explicit fuel. -/
def firstFree (used : List String) (base : String) : Nat → Nat → String
  | 0, k => candName base k
  | fuel + 1, k =>
      if used.contains (candName base k) then firstFree used base fuel (k + 1)
      else candName base k

/-- Modelled from the spec: collision handling for clean names: keep the
base name when free, else append `_2`, `_3`, ... until a free name is
found. -/
def uniquify (used : List String) (base : String) : String :=
  if used.contains base then firstFree used base (used.length + 1) 2
  else base

/-- Clean names of a column list given the names already used, in column
order. -/
def clean_names_aux (used : List String) : List String → List String
  | [] => []
  | c :: cs =>
      let n := uniquify used (clean_base c)
      n :: clean_names_aux (n :: used) cs

/-- Modelled from the spec: the clean names of all columns of one
analysis, in column order. -/
def clean_names (cols : List String) : List String := clean_names_aux [] cols

/-! ## Shipped JavaScript: field-mapping dialog defaults -/

/-- Contiguous-substring test on character lists. -/
def lowerHasAux (sub : List Char) : List Char → Bool
  | [] => sub.isEmpty
  | c :: rest => sub.isPrefixOf (c :: rest) || lowerHasAux sub rest

/-- Whether the lowercased name contains the given substring, as the
form script's `field.toLowerCase().includes(sub)`. -/
def lowerHas (name sub : String) : Bool :=
  lowerHasAux sub.data (name.data.map Char.toLower)

/-- Per-column info carried by the stored field analysis, as read by the
mapping dialog. -/
structure FieldInfo where
  suggested_type : FieldType
  sample_values : List String
deriving DecidableEq, Repr

/-- Default state of one row of the mapping dialog's table. -/
structure MappingRow where
  row_fieldtype : FieldType
  row_required : Bool
  row_unique : Bool
deriving DecidableEq, Repr

/-- From build_field_mapping_interface of the approval dialog script: the
type select defaults to the stored suggested_type, and the Required and
Unique checkboxes default to checked exactly when the lowercased column
name contains "id" or "email". -/
def build_field_mapping_row (field : String) (info : FieldInfo) : MappingRow :=
  let isIdField := lowerHas field "id"
  let isEmailField := lowerHas field "email"
  { row_fieldtype := info.suggested_type
  , row_required := isIdField || isEmailField
  , row_unique := isIdField || isEmailField }

/-- Maximal alphanumeric runs of a character list (the name's tokens). -/
def tokenSplit : List Char → List (List Char)
  | [] => []
  | c :: rest =>
      if c.isAlphanum then
        match rest, tokenSplit rest with
        | d :: _, t :: ts =>
            if d.isAlphanum then (c :: t) :: ts else [c] :: t :: ts
        | _, _ => [[c]]
      else tokenSplit rest

/-- Modelled from the spec: whether a column name token-matches a given
word (the word is one of the name's lowercased alphanumeric tokens). -/
def tokenMatches (name tok : String) : Bool :=
  (tokenSplit (name.data.map Char.toLower)).contains tok.data

/-- Modelled from the spec: the is_unique rule the spec prescribes for the
inferencer — all observed non-blank values pairwise distinct AND the
column name token-matches id or email.  Stated here only to compare with
the shipped dialog's defaults. -/
def spec_is_unique (field : String) (values : List String) : Bool :=
  allDistinct (nonBlank values)
    && (tokenMatches field "id" || tokenMatches field "email")

/-! ## Shipped JavaScript: similarity-suggestion rendering -/

/-- One suggestion returned by the backend's similarity API. -/
structure Suggestion where
  doctype : String
  similarity_pct : Nat
  matching_fields : Nat
  csv_fields : Nat
deriving DecidableEq, Repr

/-- What one rendered suggestion line shows: the schema name, the badge
percentage, and the matching-fields-out-of-proposal-fields counts. -/
structure SuggestionDisplay where
  shown_doctype : String
  shown_pct : Nat
  shown_matching : Nat
  shown_total : Nat
deriving DecidableEq, Repr

/-- Rendering of one suggestion row, from the template string of
show_similarity_suggestions. -/
def renderSuggestion (s : Suggestion) : SuggestionDisplay :=
  ⟨s.doctype, s.similarity_pct, s.matching_fields, s.csv_fields⟩

/-- From show_similarity_suggestions of the creation-request form script:
an empty list renders nothing, otherwise exactly `suggestions.slice(0, 3)`
is rendered, in order. -/
def show_similarity_suggestions (sugs : List Suggestion) : List SuggestionDisplay :=
  if sugs.isEmpty then [] else (sugs.take 3).map renderSuggestion

/-! ## Shipped JavaScript: realtime-listener initialisation guard -/

/-- The page-session state touched by the refresh handler's realtime
guard: the window.migration_realtime_initialized flag and how many times
setup_realtime_listeners has run. -/
structure PageState where
  migration_realtime_initialized : Bool
  setup_calls : Nat
deriving DecidableEq, Repr

/-- From the refresh handler of the creation-request form script: run
setup_realtime_listeners and set the window flag only when the flag is
not yet set. -/
def refreshRealtimeGuard (s : PageState) : PageState :=
  if s.migration_realtime_initialized then s
  else { migration_realtime_initialized := true, setup_calls := s.setup_calls + 1 }

/-- Page state after n form refreshes in one page session (fresh window:
flag unset, no listener setup yet). -/
def refreshSeq : Nat → PageState
  | 0 => { migration_realtime_initialized := false, setup_calls := 0 }
  | n + 1 => refreshRealtimeGuard (refreshSeq n)

/-! ## Concrete fixtures used by witnesses -/

/-- A creation request still awaiting a decision. -/
def pendingReq : CreationRequest := ⟨Status.Pending, none, none⟩

/-- A creation request that was already approved. -/
def approvedReq : CreationRequest := ⟨Status.Approved, none, none⟩

/-- A one-field Int mapping used by the executor fixtures. -/
def demoMapping : List FieldSpec := [⟨"age", FieldType.Int, true, false⟩]

/-- Two raw rows, the second of which cannot be coerced to Int. -/
def demoRows : List (List (String × String)) :=
  [[("age", "30")], [("age", "abc")]]

/-- Four similarity suggestions, one more than the dialog displays. -/
def demoSugs : List Suggestion :=
  [⟨"A", 90, 3, 3⟩, ⟨"B", 80, 2, 3⟩, ⟨"C", 70, 2, 3⟩, ⟨"D", 60, 1, 3⟩]

/-- The §8 end-to-end dataset: an Email column and an Int column. -/
def dsDemo : RawDataset :=
  ⟨["Email", "Age"], [["a@x.com", "30"], ["b@x.com", "31"]]⟩

/-! # Theorems -/

/-- Key arithmetic fact about round-to-nearest integer percentages:
roundPct num den is the integer q with 2*den*q ≤ 200*num + den <
2*den*(q+1), i.e. the value 100*num/den rounded to the nearest integer
(ties up). -/
theorem roundPct_bounds (num den : Nat) (h : den ≠ 0) :
    (2 * den) * roundPct num den ≤ 200 * num + den ∧
      200 * num + den < (2 * den) * (roundPct num den + 1) := by
  have hpos : 0 < 2 * den := by omega
  have hd := Nat.div_add_mod (200 * num + den) (2 * den)
  have hm := Nat.mod_lt (200 * num + den) hpos
  unfold roundPct
  constructor
  · omega
  · have hexp : (2 * den) * ((200 * num + den) / (2 * den) + 1) =
        (2 * den) * ((200 * num + den) / (2 * den)) + 2 * den := by ring
    omega

/-- Claim C1: the Similarity Matcher's score is
100 * |P ∩ E| / |P| rounded to the nearest integer (characterised by the
div bounds), and the score is asymmetric: {a,b,c} against {a,b,c,d,e}
scores 100 while {a,b,c} against {a,b} scores 67. -/
theorem similarity_formula (P E : List String) (hne : P ≠ []) (hnd : P.Nodup) :
    (2 * P.length) * similarity P E ≤ 200 * interCount P E + P.length ∧
    200 * interCount P E + P.length < (2 * P.length) * (similarity P E + 1) ∧
    similarity ["a", "b", "c"] ["a", "b", "c", "d", "e"] = 100 ∧
    similarity ["a", "b", "c"] ["a", "b"] = 67 := by
  have hlen : P.length ≠ 0 := by
    have := List.length_pos.mpr hne
    omega
  obtain ⟨b1, b2⟩ := roundPct_bounds (interCount P E) P.length hlen
  exact ⟨b1, b2, by decide, by decide⟩

/-- Witness for C1 at the claim's own asymmetric example. -/
theorem similarity_formula_witness :
    similarity ["a", "b", "c"] ["a", "b"] = 67 :=
  (similarity_formula ["a", "b", "c"] ["a", "b"] (by decide) (by decide)).2.2.2

/-- A healthy store commits every remaining row and completes. -/
theorem runRows_none (rs : List String) : runRows rs none = (rs.length, true) := by
  induction rs with
  | nil => rfl
  | cons x xs ih => simp [runRows, ih]

/-- A store that fails after a upserts commits exactly a of the remaining
rows and reports unavailability. -/
theorem runRows_some (rs : List String) :
    ∀ a, a < rs.length → runRows rs (some a) = (a, false) := by
  induction rs with
  | nil =>
      intro a h
      exact absurd h (by simp)
  | cons x xs ih =>
      intro a h
      cases a with
      | zero => rfl
      | succ b =>
          have hb : b < xs.length := by
            simp only [List.length_cons] at h
            omega
          simp [runRows, ih b hb]

/-- Claim C3: after run_migration raised ExecutorUnavailableError with a
rows committed, re-invoking it resumes from the first uncommitted row: the
failed call commits a rows, the resumed call commits the remaining ones,
and the success counts of the two calls sum to the row count (never
more). -/
theorem run_migration_resume (rows : List String) (a : Nat) (h : a < rows.length) :
    (run_migration rows 0 (some a)).2 = false ∧
    (run_migration rows 0 (some a)).1 = a ∧
    (run_migration rows (run_migration rows 0 (some a)).1 none).2 = true ∧
    (run_migration rows (run_migration rows 0 (some a)).1 none).1 = rows.length ∧
    ((run_migration rows 0 (some a)).1 - 0) +
      ((run_migration rows (run_migration rows 0 (some a)).1 none).1 -
        (run_migration rows 0 (some a)).1) = rows.length := by
  have h1 : run_migration rows 0 (some a) = (a, false) := by
    unfold run_migration
    rw [List.drop_zero, runRows_some rows a h]
    simp
  have h2 : run_migration rows a none = (rows.length, true) := by
    unfold run_migration
    rw [runRows_none, List.length_drop, Nat.add_sub_cancel' (Nat.le_of_lt h)]
  have hfst : (run_migration rows 0 (some a)).1 = a := by rw [h1]
  have hsnd : (run_migration rows 0 (some a)).2 = false := by rw [h1]
  rw [hfst, hsnd, h2]
  refine ⟨rfl, rfl, rfl, rfl, ?_⟩
  simp
  omega

/-- Witness for C3: a 10-row dataset whose store fails after row 5; the
success counts of the failed call and the resumed call total 10, not 15. -/
theorem run_migration_resume_witness :
    ((run_migration (List.replicate 10 "row") 0 (some 5)).1 - 0) +
      ((run_migration (List.replicate 10 "row")
          (run_migration (List.replicate 10 "row") 0 (some 5)).1 none).1 -
        (run_migration (List.replicate 10 "row") 0 (some 5)).1) =
      (List.replicate 10 "row").length ∧
    (List.replicate 10 "row").length = 10 :=
  ⟨(run_migration_resume (List.replicate 10 "row") 5 (by decide)).2.2.2.2,
   by decide⟩

/-- Claim C4: decide on a request whose status is not Pending fails with
InvalidTransitionError (no successor state is produced, so the request is
left unchanged); a decision can succeed only from Pending, and from
Pending a well-formed decision does succeed. -/
theorem decide_requires_pending (existing : List String) (req : CreationRequest)
    (action : DecisionAction) (payload : DecisionPayload) :
    (req.status ≠ Status.Pending →
      decideRequest existing req action payload =
        Except.error TransitionError.InvalidTransitionError) ∧
    (∀ req2, decideRequest existing req action payload = Except.ok req2 →
      req.status = Status.Pending) ∧
    decideRequest ["Contact"] pendingReq DecisionAction.Redirect ⟨some "Contact", none⟩ =
      Except.ok ⟨Status.Redirected, some "Contact", none⟩ := by
  refine ⟨?_, ?_, rfl⟩
  · intro h
    unfold decideRequest
    rw [if_pos h]
  · intro req2 hok
    by_cases hp : req.status = Status.Pending
    · exact hp
    · unfold decideRequest at hok
      rw [if_pos hp] at hok
      simp at hok

/-- Witness for C4: deciding an already-Approved request fails with
InvalidTransitionError. -/
theorem decide_requires_pending_witness :
    decideRequest [] approvedReq DecisionAction.Approve ⟨some "X", none⟩ =
      Except.error TransitionError.InvalidTransitionError :=
  (decide_requires_pending [] approvedReq DecisionAction.Approve
    ⟨some "X", none⟩).1 (by decide)

/-- Claim C9: the redirect dialog displays at most the first 3 similarity
suggestions; each displayed entry carries that suggestion's similarity
percentage and matching-fields/proposal-fields counts, and entries past
the third are never shown. -/
theorem similarity_suggestions_capped (sugs : List Suggestion) :
    (show_similarity_suggestions sugs).length ≤ 3 ∧
    (∀ j, j < 3 →
      (show_similarity_suggestions sugs).get? j =
        (sugs.get? j).map renderSuggestion) ∧
    (∀ j, 3 ≤ j → (show_similarity_suggestions sugs).get? j = none) := by
  by_cases h : sugs.isEmpty
  · have hnil : sugs = [] := List.isEmpty_iff.mp h
    subst hnil
    refine ⟨by simp [show_similarity_suggestions], ?_, ?_⟩
    · intro j hj
      simp [show_similarity_suggestions]
    · intro j hj
      simp [show_similarity_suggestions]
  · unfold show_similarity_suggestions
    rw [if_neg (by simpa using h)]
    refine ⟨?_, ?_, ?_⟩
    · simp only [List.length_map, List.length_take]
      omega
    · intro j hj
      rw [List.get?_map, List.get?_take hj]
    · intro j hj
      rw [List.get?_eq_none, List.length_map, List.length_take]
      omega

/-- Witness for C9 on a four-element suggestion list: the second entry is
rendered from the second suggestion and the fourth entry is not shown. -/
theorem similarity_suggestions_capped_witness :
    (show_similarity_suggestions demoSugs).get? 1 =
      (demoSugs.get? 1).map renderSuggestion ∧
    (show_similarity_suggestions demoSugs).get? 3 = none :=
  ⟨(similarity_suggestions_capped demoSugs).2.1 1 (by decide),
   (similarity_suggestions_capped demoSugs).2.2 3 (by decide)⟩

/-- After at least one refresh the page state is settled: flag set, one
setup call. -/
theorem refreshSeq_succ (n : Nat) : refreshSeq (n + 1) = ⟨true, 1⟩ := by
  induction n with
  | zero => rfl
  | succ m ih =>
      show refreshRealtimeGuard (refreshSeq (m + 1)) = _
      rw [ih]
      rfl

/-- Claim C10: registering the realtime listeners is idempotent across
refreshes within one page session: setup_realtime_listeners runs at most
once (exactly min n 1 times over n refreshes), and a further refresh of
an initialised page changes nothing. -/
theorem realtime_guard_idempotent (n : Nat) :
    (refreshSeq n).setup_calls = min n 1 ∧
    (refreshSeq n).setup_calls ≤ 1 ∧
    refreshRealtimeGuard (refreshSeq (n + 1)) = refreshSeq (n + 1) := by
  cases n with
  | zero =>
      refine ⟨rfl, by decide, ?_⟩
      rw [refreshSeq_succ 0]
      rfl
  | succ m =>
      have h1 := refreshSeq_succ m
      have h2 := refreshSeq_succ (m + 1)
      rw [h1, h2]
      refine ⟨?_, by decide, rfl⟩
      have : min (m + 1) 1 = 1 := Nat.min_eq_right (by omega)
      rw [this]

/-- When the inferencer assigns a specific type, its predicate was
unanimous over the non-blank values. -/
theorem inferType_specific (values : List String) (t : FieldType)
    (ht : t ∈ specificTypes) (h : inferType values = t) :
    (nonBlank values).all (typePred t) = true := by
  unfold inferType at h
  by_cases he : (nonBlank values).isEmpty
  · rw [if_pos he] at h
    subst h
    exact absurd ht (by decide)
  · rw [if_neg he] at h
    cases hf : specificTypes.find? (fun u => (nonBlank values).all (typePred u)) with
    | some u =>
        rw [hf] at h
        change u = t at h
        subst h
        simpa using List.find?_some hf
    | none =>
        rw [hf] at h
        by_cases hs : values.all (fun v => decide (v.length ≤ 140)) = true
        · rw [if_pos hs] at h
          subst h
          exact absurd ht (by decide)
        · rw [if_neg hs] at h
          subst h
          exact absurd ht (by decide)

/-- Claim C2: the inferencer assigns a specific type only when every
non-blank value satisfies that type's predicate; when no predicate is
unanimous the result is the Data/Text fallback by value length; hence one
non-Int (resp. non-Float) non-blank value rules out Int (resp. Float), and
["1","2","abc"] infers Data. -/
theorem infer_unanimity (values : List String) :
    (∀ t, t ∈ specificTypes → inferType values = t →
      ∀ v, v ∈ values → isBlank v = false → typePred t v = true) ∧
    ((¬ ∃ t, t ∈ specificTypes ∧ (nonBlank values).all (typePred t) = true) →
      inferType values =
        (if values.all (fun v => decide (v.length ≤ 140)) then FieldType.Data
         else FieldType.Text)) ∧
    (∀ v, v ∈ values → isBlank v = false → isInt v = false →
      inferType values ≠ FieldType.Int) ∧
    (∀ v, v ∈ values → isBlank v = false → isFloat v = false →
      inferType values ≠ FieldType.Float) ∧
    inferType ["1", "2", "abc"] = FieldType.Data := by
  have key : ∀ t, t ∈ specificTypes → inferType values = t →
      ∀ v, v ∈ values → isBlank v = false → typePred t v = true := by
    intro t ht h v hv hb
    have hall := inferType_specific values t ht h
    have hmem : v ∈ nonBlank values := by
      unfold nonBlank
      rw [List.mem_filter]
      exact ⟨hv, by simp [hb]⟩
    exact List.all_eq_true.mp hall v hmem
  refine ⟨key, ?_, ?_, ?_, by decide⟩
  · intro hno
    have hne : ¬ (nonBlank values).isEmpty = true := by
      intro hcon
      have hnil : nonBlank values = [] := List.isEmpty_iff.mp hcon
      exact hno ⟨FieldType.Email, by decide, by rw [hnil]; rfl⟩
    have hfind : specificTypes.find?
        (fun u => (nonBlank values).all (typePred u)) = none := by
      rw [List.find?_eq_none]
      intro x hx hpx
      exact hno ⟨x, hx, hpx⟩
    unfold inferType
    rw [if_neg hne, hfind]
  · intro v hv hb hint heq
    have h2 : isInt v = true := key FieldType.Int (by decide) heq v hv hb
    rw [hint] at h2
    cases h2
  · intro v hv hb hfl heq
    have h2 : isFloat v = true := key FieldType.Float (by decide) heq v hv hb
    rw [hfl] at h2
    cases h2

/-- Witness for C2: in the column ["1","2","abc"] the outlier "abc" rules
out Int, and the column indeed infers Data. -/
theorem infer_unanimity_witness :
    inferType ["1", "2", "abc"] ≠ FieldType.Int ∧
    inferType ["1", "2", "abc"] = FieldType.Data :=
  ⟨(infer_unanimity ["1", "2", "abc"]).2.2.1 "abc" (by decide) (by decide)
    (by decide),
   (infer_unanimity ["1", "2", "abc"]).2.2.2.2⟩

/-- Claim C7: the proposal's confidence is the percentage of columns
whose inferred type is not the Data/Text fallback, rounded to the nearest
integer (characterised by the div bounds); zero columns yield confidence
0; and the §8 Email/Age example, both columns specifically typed, yields
confidence 100. -/
theorem confidence_spec (d : RawDataset) (h : d.headers ≠ []) :
    (2 * d.headers.length) * confidence d ≤
      200 * specificCount d + d.headers.length ∧
    200 * specificCount d + d.headers.length <
      (2 * d.headers.length) * (confidence d + 1) ∧
    confidence ⟨[], [["x"]]⟩ = 0 ∧
    confidence dsDemo = 100 := by
  have hlen : d.headers.length ≠ 0 := by
    have := List.length_pos.mpr h
    omega
  have hc : confidence d = roundPct (specificCount d) d.headers.length := by
    unfold confidence
    rw [if_neg (by simp [List.isEmpty_iff, h])]
  obtain ⟨b1, b2⟩ := roundPct_bounds (specificCount d) d.headers.length hlen
  rw [hc]
  exact ⟨b1, b2, by decide, by decide⟩

/-- Witness for C7 at the §8 Email/Age dataset. -/
theorem confidence_spec_witness :
    (2 * dsDemo.headers.length) * confidence dsDemo ≤
      200 * specificCount dsDemo + dsDemo.headers.length ∧
    confidence dsDemo = 100 :=
  ⟨(confidence_spec dsDemo (by decide)).1,
   (confidence_spec dsDemo (by decide)).2.2.2⟩

/-- Row accounting of the executor loop: every row yields exactly one of
insert, update or recorded failure; failure records carry in-range row
indices. -/
theorem executeAux_spec (mapping : List FieldSpec)
    (rows : List (List (String × String))) :
    ∀ (i : Nat) (committed : List (String × String)),
      (executeAux mapping rows i committed).success_count +
        (executeAux mapping rows i committed).updated_count +
        (executeAux mapping rows i committed).failed_count = rows.length ∧
      (executeAux mapping rows i committed).failures.length =
        (executeAux mapping rows i committed).failed_count ∧
      ∀ p, p ∈ (executeAux mapping rows i committed).failures →
        i ≤ p.1 ∧ p.1 < i + rows.length := by
  induction rows with
  | nil =>
      intro i c
      refine ⟨rfl, rfl, ?_⟩
      intro p hp
      cases hp
  | cons row rest ih =>
      intro i c
      cases hpr : processRow mapping c row with
      | error e =>
          obtain ⟨s1, s2, s3⟩ := ih (i + 1) c
          refine ⟨?_, ?_, ?_⟩
          · simp only [executeAux, hpr, List.length_cons]
            omega
          · simp only [executeAux, hpr, List.length_cons]
            omega
          · intro p hp
            simp only [executeAux, hpr, List.mem_cons] at hp
            rcases hp with hp | hp
            · subst hp
              simp only [List.length_cons]
              omega
            · have := s3 p hp
              simp only [List.length_cons]
              omega
      | ok b =>
          cases b with
          | true =>
              obtain ⟨s1, s2, s3⟩ := ih (i + 1) c
              refine ⟨?_, ?_, ?_⟩
              · simp only [executeAux, hpr, List.length_cons]
                omega
              · simp only [executeAux, hpr]
                omega
              · intro p hp
                simp only [executeAux, hpr] at hp
                have := s3 p hp
                simp only [List.length_cons]
                omega
          | false =>
              obtain ⟨s1, s2, s3⟩ := ih (i + 1) (c ++ uniqueKeys mapping row)
              refine ⟨?_, ?_, ?_⟩
              · simp only [executeAux, hpr, List.length_cons]
                omega
              · simp only [executeAux, hpr]
                omega
              · intro p hp
                simp only [executeAux, hpr] at hp
                have := s3 p hp
                simp only [List.length_cons]
                omega

/-- Claim C8: a per-row failure of the executor is recorded with its
reason and an in-range row index while processing continues — every row
is accounted for as insert, update or failure — and the run still
transitions the request to Completed, never Failed, even with a non-zero
failed-row count (as on the demo rows, whose second row fails Int
coercion). -/
theorem executor_row_failures (mapping : List FieldSpec)
    (rows : List (List (String × String))) (req : CreationRequest) :
    (execute mapping rows).success_count + (execute mapping rows).updated_count +
      (execute mapping rows).failed_count = rows.length ∧
    (execute mapping rows).failures.length = (execute mapping rows).failed_count ∧
    (∀ p, p ∈ (execute mapping rows).failures → p.1 < rows.length) ∧
    (runApproved req mapping rows).1.status = Status.Completed ∧
    (execute demoMapping demoRows).failed_count = 1 ∧
    (execute demoMapping demoRows).failures =
      [(1, RowError.TypeCoercionError)] ∧
    (runApproved req demoMapping demoRows).1.status = Status.Completed := by
  obtain ⟨s1, s2, s3⟩ := executeAux_spec mapping rows 0 []
  refine ⟨s1, s2, ?_, rfl, by decide, by decide, rfl⟩
  intro p hp
  have := s3 p hp
  omega

/-- Witness for C8: on the demo rows the recorded failure's index is in
range and exactly one row failed. -/
theorem executor_row_failures_witness :
    (1, RowError.TypeCoercionError).1 < demoRows.length ∧
    (execute demoMapping demoRows).failed_count = 1 :=
  ⟨(executor_row_failures demoMapping demoRows pendingReq).2.2.1
      (1, RowError.TypeCoercionError) (by decide),
   (executor_row_failures demoMapping demoRows pendingReq).2.2.2.2.1⟩

/-- A list that does not contain an element does not have it as a
member. -/
theorem contains_false_not_mem {l : List String} {x : String}
    (h : l.contains x = false) : x ∉ l := by
  intro hm
  have : l.contains x = true := by simpa [List.contains] using hm
  rw [h] at this
  cases this

/-- The decimal digit character decodes back to its value. -/
theorem digitChar_toNat (n : Nat) (h : n < 10) : (digitChar n).toNat - 48 = n := by
  interval_cases n <;> decide

/-- Fuelled digit expansion round-trips through digitsVal. -/
theorem digitsVal_natDigitsAux :
    ∀ fuel n, n < 10 ^ fuel → digitsVal (natDigitsAux fuel n) = n := by
  intro fuel
  induction fuel with
  | zero =>
      intro n h
      have hz : n = 0 := by simpa using h
      subst hz
      rfl
  | succ f ih =>
      intro n h
      by_cases hn : n < 10
      · simp only [natDigitsAux, if_pos hn, digitsVal]
        rw [digitChar_toNat n hn]
        omega
      · simp only [natDigitsAux, if_neg hn, digitsVal]
        have hdiv : n / 10 < 10 ^ f := by
          rw [Nat.div_lt_iff_lt_mul (by omega)]
          calc n < 10 ^ (f + 1) := h
          _ = 10 ^ f * 10 := by rw [Nat.pow_succ]
        rw [ih (n / 10) hdiv, digitChar_toNat (n % 10) (Nat.mod_lt n (by omega))]
        omega

/-- Decimal digit expansion round-trips through digitsVal. -/
theorem natDigits_val (n : Nat) : digitsVal (natDigits n) = n := by
  have h1 : n < 10 ^ n := Nat.lt_pow_self (by omega) n
  have h2 : (10 : Nat) ^ n ≤ 10 ^ (n + 1) :=
    Nat.pow_le_pow_right (by omega) (Nat.le_succ n)
  exact digitsVal_natDigitsAux (n + 1) n (by omega)

/-- Collision candidates with distinct counters are distinct names. -/
theorem candName_inj (base : String) (j k : Nat)
    (h : candName base j = candName base k) : j = k := by
  unfold candName at h
  have hdata : base.data ++ '_' :: (natDigits j).reverse =
      base.data ++ '_' :: (natDigits k).reverse := congrArg String.data h
  have h2 := List.append_cancel_left hdata
  injection h2 with _ h3
  have h4 := List.reverse_injective h3
  have h5 := congrArg digitsVal h4
  rw [natDigits_val, natDigits_val] at h5
  exact h5

/-- If some candidate in the fuel window is free, the suffix search
returns a name not in the used list. -/
theorem firstFree_not_mem (used : List String) (base : String) :
    ∀ fuel k,
      (∃ j, k ≤ j ∧ j < k + fuel ∧ used.contains (candName base j) = false) →
      used.contains (firstFree used base fuel k) = false := by
  intro fuel
  induction fuel with
  | zero =>
      intro k h
      obtain ⟨j, hj1, hj2, _⟩ := h
      omega
  | succ f ih =>
      intro k h
      obtain ⟨j, hj1, hj2, hjf⟩ := h
      by_cases hc : used.contains (candName base k) = true
      · have hstep : firstFree used base (f + 1) k = firstFree used base f (k + 1) := by
          simp only [firstFree, if_pos hc]
        rw [hstep]
        apply ih (k + 1)
        have hjk : j ≠ k := by
          intro heq
          rw [heq] at hjf
          rw [hjf] at hc
          cases hc
        exact ⟨j, by omega, by omega, hjf⟩
      · have hstep : firstFree used base (f + 1) k = candName base k := by
          simp only [firstFree, if_neg hc]
        rw [hstep]
        cases hcc : used.contains (candName base k)
        · rfl
        · exact absurd hcc hc

/-- Pigeonhole: among used.length + 1 distinct candidates some name is
free of the used list. -/
theorem exists_free_cand (used : List String) (base : String) :
    ∃ j, 2 ≤ j ∧ j < 2 + (used.length + 1) ∧
      used.contains (candName base j) = false := by
  by_contra hno
  push_neg at hno
  have hmem : ∀ j ∈ Finset.Ico 2 (2 + (used.length + 1)),
      candName base j ∈ used.toFinset := by
    intro j hj
    rw [Finset.mem_Ico] at hj
    have h1 := hno j hj.1 hj.2
    rw [List.mem_toFinset]
    have h2 : used.contains (candName base j) = true := by
      cases hcc : used.contains (candName base j)
      · exact absurd hcc h1
      · rfl
    simpa [List.contains] using h2
  have hinj : Set.InjOn (candName base) ↑(Finset.Ico 2 (2 + (used.length + 1))) := by
    intro a _ b _ hab
    exact candName_inj base a b hab
  have hcard := Finset.card_le_card_of_injOn (candName base) hmem hinj
  rw [Nat.card_Ico] at hcard
  have hle := List.toFinset_card_le used
  omega

/-- The deduplicated clean name is never one of the already-used names. -/
theorem uniquify_not_mem (used : List String) (base : String) :
    uniquify used base ∉ used := by
  unfold uniquify
  by_cases hc : used.contains base = true
  · rw [if_pos hc]
    exact contains_false_not_mem
      (firstFree_not_mem used base (used.length + 1) 2 (exists_free_cand used base))
  · rw [if_neg hc]
    have hcf : used.contains base = false := by
      cases hcc : used.contains base
      · rfl
      · exact absurd hcc hc
    exact contains_false_not_mem hcf

/-- The clean-name fold yields pairwise-distinct names avoiding every
already-used name. -/
theorem clean_names_aux_spec (cols : List String) :
    ∀ used, (clean_names_aux used cols).Nodup ∧
      ∀ n, n ∈ clean_names_aux used cols → n ∉ used := by
  induction cols with
  | nil =>
      intro used
      exact ⟨List.nodup_nil, by intro n hn; cases hn⟩
  | cons c cs ih =>
      intro used
      obtain ⟨hnd, hsub⟩ := ih (uniquify used (clean_base c) :: used)
      constructor
      · simp only [clean_names_aux]
        rw [List.nodup_cons]
        refine ⟨?_, hnd⟩
        intro hmem
        exact (hsub _ hmem) (List.mem_cons_self _ _)
      · intro n hn
        simp only [clean_names_aux, List.mem_cons] at hn
        rcases hn with hn | hn
        · subst hn
          exact uniquify_not_mem used (clean_base c)
        · intro hnu
          exact (hsub n hn) (List.mem_cons_of_mem _ hnu)

/-- Claim C5: within one analysis the derived clean names are pairwise
distinct; the two columns "User Name" and "user-name" both clean to
user_name and the collision resolves to user_name and user_name_2 in
column order; a name with no alphanumeric characters collapses to
field. -/
theorem clean_names_distinct (cols : List String) :
    (clean_names cols).Nodup ∧
    clean_names ["User Name", "user-name"] = ["user_name", "user_name_2"] ∧
    clean_base "@#!" = "field" :=
  ⟨(clean_names_aux_spec cols []).1, by decide, by decide⟩

/-- Counterexample for C6: the shipped mapping dialog sets the Unique
default for a column named id with the duplicated sample values ["1","1"],
although the spec's rule (distinct values AND a name hint) yields false —
a name match alone sets the flag in the code. -/
theorem mapping_unique_counterexample :
    ¬ ((build_field_mapping_row "id" ⟨FieldType.Data, ["1", "1"]⟩).row_unique =
        spec_is_unique "id" ["1", "1"]) := by
  decide

/-- Claim C6 (amended): in the shipped mapping dialog the Unique default
of a column depends only on the column name — it ignores the observed
sample values, coincides with the Required default, and is set exactly
when the lowercased name contains id or email as a substring. -/
theorem mapping_unique_name_only (field : String) (info info2 : FieldInfo) :
    (build_field_mapping_row field info).row_unique =
      (build_field_mapping_row field info2).row_unique ∧
    (build_field_mapping_row field info).row_unique =
      (build_field_mapping_row field info).row_required ∧
    (build_field_mapping_row field info).row_unique =
      (lowerHas field "id" || lowerHas field "email") :=
  ⟨rfl, rfl, rfl⟩

end DMT
